import Mathlib

/-!
# Verification of the sqs-fargate-consumer core

Shallow embedding of the Go sources of `sqs-fargate-consumer`:

* `internal/consumer/metrics.go`  — `MetricsCollector` (current values, sliding
  windows, pruning, averages);
* `internal/consumer/consumer.go` — the worker pool (`addWorker`, `removeWorker`,
  `Start`);
* `internal/consumer/scaler.go`   — the scaling controller (`shouldScaleUp`,
  `shouldScaleDown`, `evaluateScaling`);
* `internal/consumer/worker.go`   — the per-message processing step
  (`handleError`, delete on success) and the utilization ticker
  (`trackUtilization`).

Modelling conventions: instants and durations are integers in seconds (every
constant in the sources is a whole number of seconds: retention 30 min, the
1-minute averaging window, the 30 s cooldown, the 10 s utilization window,
`lastWindowTime` is `time.Now().Unix()`); `float64` values are rationals;
the Go maps keyed by metric name become functions out of `String`; fallible
operations return `Except`/`Option`.  Side effects of one message-processing
iteration (queue calls, counters, log lines) are collected in an explicit
effect record.
-/

namespace SqsConsumer

/-! ## Metrics engine (`metrics.go`) -/

/-- `MetricDataPoint` from metrics.go: one point of a metric's sliding window. -/
structure MetricDataPoint where
  value : ℚ
  timestamp : ℤ
deriving DecidableEq, Repr

/-- `Metric` from metrics.go: one sample sent through the ingress channel. -/
structure Metric where
  name : String
  value : ℚ
  unit : String
  timestamp : ℤ
deriving DecidableEq, Repr

/-- The retention horizon of `cleanupOldDataPoints`: 30 minutes, in seconds. -/
def retentionSeconds : ℤ := 1800

def MetricWorkerCount : String := "WorkerCount"
def MetricWorkerUtilization : String := "WorkerUtilization"
def MetricQueueDepth : String := "QueueDepth"
def MetricProcessingTime : String := "ProcessingTime"

/-- `RecordError` publishes under the name `"Error_" + errorType`. -/
def recordErrorName (errorType : String) : String := "Error_" ++ errorType

/-- The mutable state of `MetricsCollector`: `metricValues` (current value per
name, absent names read as 0 in `GetMetric`) and `metricWindow` (sliding window
per name; a name never written holds the empty list, like a nil Go slice). -/
structure CollectorState where
  metricValues : String → Option ℚ
  metricWindow : String → List MetricDataPoint

/-- The state `NewMetricsCollector` starts from: empty maps. -/
def initialCollector : CollectorState :=
  ⟨fun _ => none, fun _ => []⟩

/-- `GetMetric`: the current value of a metric, 0 when never recorded. -/
def GetMetric (st : CollectorState) (name : String) : ℚ :=
  match st.metricValues name with
  | some v => v
  | none => 0

/-- `GetMetricAverage`: mean of the window samples strictly newer than
`now - duration`; 0 when the window is empty or no sample qualifies. -/
def GetMetricAverage (now : ℤ) (st : CollectorState) (name : String)
    (duration : ℤ) : ℚ :=
  let dataPoints := st.metricWindow name
  if dataPoints.isEmpty then 0
  else
    let cutoff := now - duration
    let inWindow := dataPoints.filter (fun dp => cutoff < dp.timestamp)
    if inWindow.length = 0 then 0
    else (inWindow.map (fun dp => dp.value)).sum / (inWindow.length : ℚ)

/-- The loop of `cleanupOldDataPoints`: `keepIndex` is the index of the first
datapoint strictly newer than the cutoff, and stays 0 when no datapoint is. -/
def keepIndexOf (cutoff : ℤ) (dataPoints : List MetricDataPoint) : ℕ :=
  match dataPoints.findIdx? (fun dp => cutoff < dp.timestamp) with
  | some i => i
  | none => 0

/-- `cleanupOldDataPoints`: slice off the prefix before `keepIndex`, but only
when `keepIndex > 0`. -/
def cleanupOldDataPoints (now : ℤ) (dataPoints : List MetricDataPoint) :
    List MetricDataPoint :=
  let cutoff := now - retentionSeconds
  let keepIndex := keepIndexOf cutoff dataPoints
  if keepIndex > 0 then dataPoints.drop keepIndex else dataPoints

/-- `processMetric`: the drainer applies one sample — update the current value,
append the datapoint to the window of its name, prune that window. -/
def processMetric (now : ℤ) (st : CollectorState) (m : Metric) : CollectorState where
  metricValues := fun n => if n = m.name then some m.value else st.metricValues n
  metricWindow := fun n =>
    if n = m.name then
      cleanupOldDataPoints now (st.metricWindow m.name ++ [⟨m.value, m.timestamp⟩])
    else st.metricWindow n

/-! ## Worker pool (`consumer.go`) -/

/-- The part of a `Worker`'s state the pool claims govern: whether its `done`
channel has been closed (`Stop` called). -/
structure WorkerState where
  stopped : Bool
deriving DecidableEq, Repr

/-- The errors `addWorker` / `removeWorker` return at the bounds. -/
inductive PoolError where
  | maxReached
  | minReached
deriving DecidableEq, Repr

/-- `Config` from consumer.go (`TargetProcessingTime` is kept already converted
by `.Seconds()`, the only way scaler.go reads it). -/
structure Config where
  InitialWorkerCount : ℕ
  MaxWorkerCount : ℕ
  MinWorkerCount : ℕ
  ScaleUpThreshold : ℚ
  ScaleDownThreshold : ℚ
  CooldownPeriod : ℤ
  TargetProcessingTimeSeconds : ℚ
deriving DecidableEq, Repr

/-- The `Consumer`'s pool state: the worker map as an ordered association list
(uuid keys abstracted to a counter `nextId`, which keeps them unique). -/
structure Pool where
  workers : List (ℕ × WorkerState)
  nextId : ℕ
deriving DecidableEq, Repr

def emptyPool : Pool := ⟨[], 0⟩

/-- `addWorker`: refuse when the map already holds `MaxWorkerCount` workers,
else insert a fresh, running worker. -/
def addWorker (cfg : Config) (p : Pool) : Except PoolError Pool :=
  if cfg.MaxWorkerCount ≤ p.workers.length then .error .maxReached
  else .ok { workers := p.workers ++ [(p.nextId, ⟨false⟩)], nextId := p.nextId + 1 }

/-- `removeWorker`: refuse when the map holds only `MinWorkerCount` workers,
else stop the first-ranged worker and delete it from the map. -/
def removeWorker (cfg : Config) (p : Pool) : Except PoolError Pool :=
  if p.workers.length ≤ cfg.MinWorkerCount then .error .minReached
  else .ok { p with workers := p.workers.tail }

/-- `addWorker` as the scaler sees it: an error is only logged, the pool keeps
its previous state. -/
def runAdd (cfg : Config) (p : Pool) : Pool :=
  match addWorker cfg p with
  | .ok p' => p'
  | .error _ => p

/-- `removeWorker` as the scaler sees it. -/
def runRemove (cfg : Config) (p : Pool) : Pool :=
  match removeWorker cfg p with
  | .ok p' => p'
  | .error _ => p

/-- The loop of `Consumer.Start`: call `addWorker` `n` times; on the first
error return it at once, keeping the pool as it stands at that moment. -/
def startWorkers (cfg : Config) : ℕ → Pool → Option PoolError × Pool
  | 0, p => (none, p)
  | n + 1, p =>
    match addWorker cfg p with
    | .error e => (some e, p)
    | .ok p' => startWorkers cfg n p'

/-- `Consumer.Start`: spawn `InitialWorkerCount` workers (the monitors it also
starts carry no pool state). -/
def Start (cfg : Config) (p : Pool) : Option PoolError × Pool :=
  startWorkers cfg cfg.InitialWorkerCount p

/-- Pool states the running system can be in: the result of a successful
`Start` from the empty pool, followed by any sequence of scaler-driven
`addWorker` / `removeWorker` calls. -/
inductive Reachable (cfg : Config) : Pool → Prop where
  | started (p : Pool) (h : Start cfg emptyPool = (none, p)) : Reachable cfg p
  | addStep (p : Pool) (h : Reachable cfg p) : Reachable cfg (runAdd cfg p)
  | removeStep (p : Pool) (h : Reachable cfg p) : Reachable cfg (runRemove cfg p)

/-! ## Scaler (`scaler.go`) -/

/-- `Scaler`'s own mutable state. -/
structure ScalerState where
  lastScaleEvent : ℤ
deriving DecidableEq, Repr

/-- `shouldScaleUp`, exactly the disjunction of scaler.go lines 64-68
(`processingTime` is the 1-minute `ProcessingTime` average, a millisecond
value; the threshold is `TargetProcessingTime.Seconds()`). -/
def shouldScaleUp (cfg : Config) (queueDepth processingTime utilization : ℚ) : Bool :=
  queueDepth > cfg.ScaleUpThreshold ||
    utilization > 75 ||
    processingTime > cfg.TargetProcessingTimeSeconds

/-- `shouldScaleDown`, scaler.go lines 70-74. -/
def shouldScaleDown (cfg : Config) (queueDepth processingTime utilization : ℚ) : Bool :=
  queueDepth < cfg.ScaleDownThreshold &&
    utilization < 40 &&
    processingTime < cfg.TargetProcessingTimeSeconds

/-- What a tick did to the pool: which call it made and whether that call
returned an error (the error is only logged by the scaler). -/
inductive ScaleAction where
  | add (failed : Bool)
  | remove (failed : Bool)
deriving DecidableEq, Repr

/-- Result of one `evaluateScaling` tick. -/
structure TickResult where
  scaler : ScalerState
  pool : Pool
  actions : List ScaleAction
deriving DecidableEq, Repr

/-- `evaluateScaling` (scaler.go lines 39-62), given the three metric readings
it made at the top of the tick.  Note: `lastScaleEvent = now` is assigned
unconditionally after each pool call, error or not, exactly as in the source. -/
def evaluateScaling (cfg : Config) (now : ℤ) (s : ScalerState) (p : Pool)
    (queueDepth processingTime workerUtilization : ℚ) : TickResult :=
  if shouldScaleUp cfg queueDepth processingTime workerUtilization then
    match addWorker cfg p with
    | .error _ => ⟨⟨now⟩, p, [.add true]⟩
    | .ok p' => ⟨⟨now⟩, p', [.add false]⟩
  else if shouldScaleDown cfg queueDepth processingTime workerUtilization then
    if now - s.lastScaleEvent > cfg.CooldownPeriod then
      match removeWorker cfg p with
      | .error _ => ⟨⟨now⟩, p, [.remove true]⟩
      | .ok p' => ⟨⟨now⟩, p', [.remove false]⟩
    else ⟨s, p, []⟩
  else ⟨s, p, []⟩

/-- One full scaler tick: read `QueueDepth` (current), `ProcessingTime` and
`WorkerUtilization` (1-minute averages) from the collector, then evaluate. -/
def scalerTick (cfg : Config) (now : ℤ) (st : CollectorState) (s : ScalerState)
    (p : Pool) : TickResult :=
  evaluateScaling cfg now s p
    (GetMetric st MetricQueueDepth)
    (GetMetricAverage now st MetricProcessingTime 60)
    (GetMetricAverage now st MetricWorkerUtilization 60)

/-! ## Worker (`worker.go`) -/

/-- Outcome of the pluggable handler (`processMessage`) on one message. -/
inductive HandlerResult where
  | ok
  | err
deriving DecidableEq, Repr

/-- The observable side effects of processing one received message: queue
calls made, error-counter samples recorded, the `processedCount` increment,
error log lines, and `RecordProcessingTime` samples. -/
structure MsgEffects where
  deleteCalls : ℕ
  visibilityCalls : List ℤ
  errorCounters : List String
  processedIncrement : ℕ
  errorLogs : ℕ
  processingTimeRecords : ℕ
deriving DecidableEq, Repr

/-- `handleError` (worker.go lines 139-152): log, record the
`processing_error` counter, one `ChangeMessageVisibility` to 30 s; a failure
of the visibility call is only logged. -/
def handleError (changeVisibilityFails : Bool) : MsgEffects where
  deleteCalls := 0
  visibilityCalls := [30]
  errorCounters := [recordErrorName "processing_error"]
  processedIncrement := 0
  errorLogs := 1 + (if changeVisibilityFails then 1 else 0)
  processingTimeRecords := 0

/-- The body of the per-message loop in `Worker.Start` (lines 60-74): on
handler error run `handleError`; on success call delete — whose result is
discarded — and increment `processedCount`; in both cases record the
processing duration.  `deleteFails` and `changeVisibilityFails` say whether
the respective queue call would error. -/
def processOneMessage (handlerResult : HandlerResult)
    (deleteFails changeVisibilityFails : Bool) : MsgEffects :=
  let effects :=
    match handlerResult with
    | .err => handleError changeVisibilityFails
    | .ok =>
      { deleteCalls := 1
        visibilityCalls := []
        errorCounters := []
        processedIncrement := 1
        errorLogs := 0
        processingTimeRecords := 0 }
  { effects with processingTimeRecords := effects.processingTimeRecords + 1 }

/-- One firing of the `trackUtilization` ticker (worker.go lines 87-103):
`processed` is the swapped-out `processedCount`, `lastWindow`/`now` are Unix
seconds.  Returns the `WorkerUtilization` value published, or `none` when
`timeWindow ≤ 0` (nothing is published then). -/
def utilizationTick (processed : ℤ) (lastWindow now : ℤ) : Option ℚ :=
  let timeWindow := now - lastWindow
  if 0 < timeWindow then
    let utilization := (processed : ℚ) / (timeWindow : ℚ) * 100
    some (if utilization > 100 then 100 else utilization)
  else none

/-! ## Concrete fixtures used by the boundary scenarios -/

/-- Scenario A's configuration: `{min=2, max=3, initial=2}` (thresholds and
cooldown as in main.go, target 30 s). -/
def cfgA : Config := ⟨2, 3, 2, 50, 10, 30, 30⟩

/-- Scenario B's configuration: cooldown 30 s, a max high enough that
`addWorker` succeeds. -/
def cfgB : Config := ⟨2, 100, 2, 50, 10, 30, 30⟩

/-- A pool of `n` running workers with ids `0, …, n-1`. -/
def poolOf (n : ℕ) : Pool := ⟨(List.range n).map (fun i => (i, ⟨false⟩)), n⟩

/-! ## Supporting lemmas -/

theorem drop_of_findIdx?_eq_some {α : Type} (p : α → Bool) :
    ∀ (l : List α) (j : ℕ), l.findIdx? p = some j →
      l.drop j = l.dropWhile (fun a => !p a) := by
  intro l
  induction l with
  | nil => intro j h; simp at h
  | cons x xs ih =>
    intro j h
    rw [List.findIdx?_cons] at h
    by_cases hx : p x
    · simp only [hx, if_true, Option.some.injEq] at h
      subst h
      simp [List.dropWhile_cons, hx]
    · simp only [hx, if_false, List.findIdx?_start_succ, Nat.zero_add] at h
      obtain ⟨j', hj', rfl⟩ := Option.map_eq_some'.mp h
      simp [List.dropWhile_cons, hx, List.drop_succ_cons, ih j' hj']

theorem dropWhile_ext {α : Type} (p q : α → Bool) (h : ∀ a, p a = q a) :
    ∀ l : List α, l.dropWhile p = l.dropWhile q := by
  intro l
  induction l with
  | nil => rfl
  | cons x xs ih =>
    rw [List.dropWhile_cons, List.dropWhile_cons, h x]
    split <;> simp [ih]

/-- When at least one datapoint is inside the retention window,
`cleanupOldDataPoints` drops exactly the leading run of datapoints that are
not, stopping at the first in-window datapoint. -/
theorem cleanupOldDataPoints_eq_dropWhile (now : ℤ) (l : List MetricDataPoint)
    (h : ∃ dp ∈ l, now - retentionSeconds < dp.timestamp) :
    cleanupOldDataPoints now l
      = l.dropWhile (fun dp => dp.timestamp ≤ now - retentionSeconds) := by
  obtain ⟨dp₀, hmem, hfresh⟩ := h
  have hex : ∃ x, x ∈ l ∧ (fun dp : MetricDataPoint =>
      decide (now - retentionSeconds < dp.timestamp)) x = true := by
    exact ⟨dp₀, hmem, by simpa using hfresh⟩
  obtain ⟨i, hi⟩ := Option.isSome_iff_exists.mp
    (by rw [List.findIdx?_isSome]; exact List.any_eq_true.mpr hex)
  have hdrop := drop_of_findIdx?_eq_some _ l i hi
  have hpred : ∀ dp : MetricDataPoint,
      (!decide (now - retentionSeconds < dp.timestamp))
        = decide (dp.timestamp ≤ now - retentionSeconds) := by
    intro dp
    rw [← decide_not]
    simp [not_lt]
  rw [cleanupOldDataPoints, keepIndexOf, hi]
  have hgoal : List.drop i l
      = l.dropWhile (fun dp => dp.timestamp ≤ now - retentionSeconds) := by
    rw [hdrop]
    exact dropWhile_ext _ _ hpred l
  by_cases hi0 : i > 0
  · simp only [hi0, if_true]
    exact hgoal
  · have : i = 0 := by omega
    subst this
    simpa using hgoal

/-- When no datapoint is inside the retention window, `cleanupOldDataPoints`
removes nothing at all. -/
theorem cleanupOldDataPoints_stale_unchanged (now : ℤ) (l : List MetricDataPoint)
    (h : ∀ dp ∈ l, dp.timestamp ≤ now - retentionSeconds) :
    cleanupOldDataPoints now l = l := by
  have hnone : l.findIdx? (fun dp =>
      decide (now - retentionSeconds < dp.timestamp)) = none := by
    rw [List.findIdx?_eq_none_iff]
    intro dp hdp
    simpa [not_lt] using h dp hdp
  rw [cleanupOldDataPoints, keepIndexOf, hnone]
  simp

/-- In a window whose timestamps are pairwise non-decreasing, everything that
survives `dropWhile (stale)` is in-window, provided anything in-window exists
to stop at. -/
theorem dropWhile_stale_fresh (cutoff : ℤ) :
    ∀ l : List MetricDataPoint,
      l.Pairwise (fun a b => a.timestamp ≤ b.timestamp) →
      ∀ dp ∈ l.dropWhile (fun dp => dp.timestamp ≤ cutoff), cutoff < dp.timestamp := by
  intro l
  induction l with
  | nil => intro _ dp hdp; simp at hdp
  | cons x xs ih =>
    intro hpair dp hdp
    rw [List.pairwise_cons] at hpair
    rw [List.dropWhile_cons] at hdp
    by_cases hx : x.timestamp ≤ cutoff
    · simp [hx] at hdp
      exact ih hpair.2 dp hdp
    · simp [hx] at hdp
      rcases hdp with rfl | hmem
      · exact lt_of_not_le hx
      · exact lt_of_lt_of_le (lt_of_not_le hx) (hpair.1 dp hmem)

theorem startWorkers_ok_length (cfg : Config) :
    ∀ (n : ℕ) (p p' : Pool), startWorkers cfg n p = (none, p') →
      p'.workers.length = p.workers.length + n := by
  intro n
  induction n with
  | zero =>
    intro p p' h
    simp only [startWorkers, Prod.mk.injEq] at h
    rw [← h.2]
    simp
  | succ k ih =>
    intro p p' h
    rw [startWorkers] at h
    rcases haw : addWorker cfg p with e | q
    · rw [haw] at h; simp at h
    · rw [haw] at h
      have hlen : q.workers.length = p.workers.length + 1 := by
        rw [addWorker] at haw
        split at haw
        · simp at haw
        · simp only [Except.ok.injEq] at haw
          rw [← haw]
          simp
      rw [ih q p' h, hlen]
      omega

theorem startWorkers_ok_of_le (cfg : Config) :
    ∀ (n : ℕ) (p : Pool), p.workers.length + n ≤ cfg.MaxWorkerCount →
      (startWorkers cfg n p).1 = none := by
  intro n
  induction n with
  | zero => intro p _; rfl
  | succ k ih =>
    intro p hle
    rw [startWorkers]
    rcases haw : addWorker cfg p with e | q
    · rw [addWorker] at haw
      split at haw
      · omega
      · simp at haw
    · have hlen : q.workers.length = p.workers.length + 1 := by
        rw [addWorker] at haw
        split at haw
        · simp at haw
        · simp only [Except.ok.injEq] at haw
          rw [← haw]
          simp
      exact ih q (by omega)

theorem runAdd_length (cfg : Config) (p : Pool) :
    ((runAdd cfg p).workers.length = p.workers.length + 1
        ∧ p.workers.length < cfg.MaxWorkerCount) ∨
      (runAdd cfg p = p ∧ cfg.MaxWorkerCount ≤ p.workers.length) := by
  rcases haw : addWorker cfg p with e | q
  · right
    refine ⟨by simp [runAdd, haw], ?_⟩
    rw [addWorker] at haw
    by_cases hle : cfg.MaxWorkerCount ≤ p.workers.length
    · exact hle
    · simp [hle] at haw
  · left
    have hrun : runAdd cfg p = q := by simp [runAdd, haw]
    rw [addWorker] at haw
    by_cases hle : cfg.MaxWorkerCount ≤ p.workers.length
    · simp [hle] at haw
    · simp only [hle, if_false, Except.ok.injEq] at haw
      refine ⟨?_, by omega⟩
      rw [hrun, ← haw]
      simp

theorem runRemove_length (cfg : Config) (p : Pool) :
    ((runRemove cfg p).workers.length = p.workers.length - 1
        ∧ cfg.MinWorkerCount < p.workers.length) ∨
      (runRemove cfg p = p ∧ p.workers.length ≤ cfg.MinWorkerCount) := by
  rcases hrw : removeWorker cfg p with e | q
  · right
    refine ⟨by simp [runRemove, hrw], ?_⟩
    rw [removeWorker] at hrw
    by_cases hle : p.workers.length ≤ cfg.MinWorkerCount
    · exact hle
    · simp [hle] at hrw
  · left
    have hrun : runRemove cfg p = q := by simp [runRemove, hrw]
    rw [removeWorker] at hrw
    by_cases hle : p.workers.length ≤ cfg.MinWorkerCount
    · simp [hle] at hrw
    · simp only [hle, if_false, Except.ok.injEq] at hrw
      refine ⟨?_, by omega⟩
      rw [hrun, ← hrw]
      simp

/-! ## Claim C1 -/

/-- C1 counterexample: a tick on which `addWorker` returns `MaxReached` (the
pool of scenario A's config already holds `max = 3` workers, and queue depth
100 forces the scale-up branch) nevertheless overwrites `lastScaleEvent` with
the tick's time: it moves from 0 to 1000.  This refutes the claim that
`MaxReached`/`MinReached` ticks leave `last_scale_event` unchanged. -/
theorem claim_C1_counterexample :
    addWorker cfgA (poolOf 3) = Except.error PoolError.maxReached ∧
    (evaluateScaling cfgA 1000 ⟨0⟩ (poolOf 3) 100 0 0).actions
      = [ScaleAction.add true] ∧
    (evaluateScaling cfgA 1000 ⟨0⟩ (poolOf 3) 100 0 0).scaler.lastScaleEvent
      = 1000 ∧
    (1000 : ℤ) ≠ 0 :=
  ⟨rfl, by decide, by decide, by decide⟩

/-- C1 (amended): `lastScaleEvent` is set to the tick's current time on every
tick on which `addWorker` or `removeWorker` is invoked — whether or not the
call returns a `MaxReached`/`MinReached` error, since the scaler only logs the
error before the unconditional assignment — and is left unchanged exactly on
the ticks that invoke neither. -/
theorem claim_C1_amended (cfg : Config) (now : ℤ) (s : ScalerState) (p : Pool)
    (qd pt util : ℚ) :
    ((evaluateScaling cfg now s p qd pt util).actions ≠ [] →
        (evaluateScaling cfg now s p qd pt util).scaler.lastScaleEvent = now) ∧
    ((evaluateScaling cfg now s p qd pt util).actions = [] →
        (evaluateScaling cfg now s p qd pt util).scaler = s) := by
  unfold evaluateScaling
  split
  · split <;> simp
  · split
    · split
      · split <;> simp
      · simp
    · simp

/-- C1 amended, instantiated: on the counterexample tick (whose `addWorker`
call fails with `MaxReached`) the amended statement gives
`lastScaleEvent = 1000`. -/
theorem claim_C1_amended_witness :
    (evaluateScaling cfgA 1000 ⟨0⟩ (poolOf 3) 100 0 0).scaler.lastScaleEvent
      = 1000 :=
  (claim_C1_amended cfgA 1000 ⟨0⟩ (poolOf 3) 100 0 0).1 (by decide)

/-! ## Claim C2 -/

/-- C2 (confirmed): scale-up happens on every tick on which the scale-up
predicate holds, gated by no cooldown; `removeWorker` is never invoked on a
tick with `now - lastScaleEvent ≤ cooldown`; and scenario B plays out as
specified with cooldown 30 s: scale-up at t = 0, a scale-down condition at
t = 5 causes no removal and leaves `lastScaleEvent` at 0, the same condition
at t = 31 causes exactly one removal and sets `lastScaleEvent = 31`. -/
theorem claim_C2 :
    (∀ (cfg : Config) (now : ℤ) (s : ScalerState) (p : Pool) (qd pt util : ℚ),
        shouldScaleUp cfg qd pt util = true →
        ∃ failed, (evaluateScaling cfg now s p qd pt util).actions
          = [ScaleAction.add failed]) ∧
    (∀ (cfg : Config) (now : ℤ) (s : ScalerState) (p : Pool) (qd pt util : ℚ),
        now - s.lastScaleEvent ≤ cfg.CooldownPeriod →
        ∀ failed,
          ScaleAction.remove failed ∉ (evaluateScaling cfg now s p qd pt util).actions) ∧
    ((evaluateScaling cfgB 0 ⟨-60⟩ (poolOf 2) 100 0 0).actions
        = [ScaleAction.add false] ∧
      (evaluateScaling cfgB 0 ⟨-60⟩ (poolOf 2) 100 0 0).scaler.lastScaleEvent = 0 ∧
      (evaluateScaling cfgB 5 (evaluateScaling cfgB 0 ⟨-60⟩ (poolOf 2) 100 0 0).scaler
          (evaluateScaling cfgB 0 ⟨-60⟩ (poolOf 2) 100 0 0).pool 5 0 0).actions = [] ∧
      (evaluateScaling cfgB 5 (evaluateScaling cfgB 0 ⟨-60⟩ (poolOf 2) 100 0 0).scaler
          (evaluateScaling cfgB 0 ⟨-60⟩ (poolOf 2) 100 0 0).pool 5 0 0).scaler.lastScaleEvent
        = 0 ∧
      (evaluateScaling cfgB 31 ⟨0⟩ (poolOf 3) 5 0 0).actions
        = [ScaleAction.remove false] ∧
      (evaluateScaling cfgB 31 ⟨0⟩ (poolOf 3) 5 0 0).scaler.lastScaleEvent = 31) := by
  refine ⟨?_, ?_, by decide⟩
  · intro cfg now s p qd pt util h
    unfold evaluateScaling
    rcases haw : addWorker cfg p with e | q
    · exact ⟨true, by simp [h, haw]⟩
    · exact ⟨false, by simp [h, haw]⟩
  · intro cfg now s p qd pt util h failed
    unfold evaluateScaling
    split
    · rcases addWorker cfg p with e | q <;> simp
    · split
      · have hcd : ¬ (now - s.lastScaleEvent > cfg.CooldownPeriod) := by omega
        simp [hcd]
      · simp

/-- C2, instantiated: a tick whose scale-up predicate holds performs a
scale-up, and a tick 5 s after the last scale event (cooldown 30 s) performs
no removal. -/
theorem claim_C2_witness :
    (∃ failed, (evaluateScaling cfgB 0 ⟨-60⟩ (poolOf 2) 100 0 0).actions
        = [ScaleAction.add failed]) ∧
    ScaleAction.remove false
        ∉ (evaluateScaling cfgB 5 ⟨0⟩ (poolOf 3) 5 0 0).actions :=
  ⟨claim_C2.1 cfgB 0 ⟨-60⟩ (poolOf 2) 100 0 0 (by decide),
   claim_C2.2.1 cfgB 5 ⟨0⟩ (poolOf 3) 5 0 0 (by decide) false⟩

/-! ## Claim C6 -/

/-- C6 (confirmed): when the handler errors on a message, the worker makes no
delete call, makes exactly one change-visibility call — with a 30-second
visibility timeout — records exactly one `Error_processing_error` counter
sample, and does not count the message as processed; this holds whether or
not the visibility call itself fails, so the receipt is never deleted on the
failure path. -/
theorem claim_C6 : ∀ (deleteFails changeVisibilityFails : Bool),
    (processOneMessage HandlerResult.err deleteFails changeVisibilityFails).deleteCalls = 0 ∧
    (processOneMessage HandlerResult.err deleteFails changeVisibilityFails).visibilityCalls
      = [30] ∧
    (processOneMessage HandlerResult.err deleteFails changeVisibilityFails).errorCounters
      = ["Error_processing_error"] ∧
    recordErrorName "processing_error" = "Error_processing_error" ∧
    (processOneMessage HandlerResult.err deleteFails changeVisibilityFails).processedIncrement
      = 0 := by
  decide

/-! ## Claim C10 -/

/-- C10 (confirmed): when the handler succeeds and the subsequent delete call
errors, the worker discards the error silently — the per-message effects are
identical whether the delete fails or succeeds: no error counter, no error
log line, no visibility change, and `processedCount` is still incremented. -/
theorem claim_C10 : ∀ (changeVisibilityFails : Bool),
    (∀ deleteFails deleteFails',
        processOneMessage HandlerResult.ok deleteFails changeVisibilityFails
          = processOneMessage HandlerResult.ok deleteFails' changeVisibilityFails) ∧
    (processOneMessage HandlerResult.ok true changeVisibilityFails).deleteCalls = 1 ∧
    (processOneMessage HandlerResult.ok true changeVisibilityFails).errorCounters = [] ∧
    (processOneMessage HandlerResult.ok true changeVisibilityFails).errorLogs = 0 ∧
    (processOneMessage HandlerResult.ok true changeVisibilityFails).visibilityCalls = [] ∧
    (processOneMessage HandlerResult.ok true changeVisibilityFails).processedIncrement
      = 1 := by
  decide

/-! ## Claim C3 -/

/-- C3 (confirmed): under the pool invariant bound, `addWorker` fails with
`MaxReached` — leaving the map unchanged — exactly when the pool is at `max`,
and `removeWorker` fails with `MinReached` — leaving the map unchanged —
exactly when the pool is at `min`; for configs with `min ≤ initial ≤ max`,
every pool state reachable after a successful `Start` satisfies
`min ≤ |workers| ≤ max`; and scenario A (`min=2, max=3, initial=2`) runs as
specified: the first `addWorker` succeeds with 3 workers, the second returns
`MaxReached` with the count still 3. -/
theorem claim_C3 :
    (∀ (cfg : Config) (p : Pool), p.workers.length ≤ cfg.MaxWorkerCount →
        ((addWorker cfg p = Except.error PoolError.maxReached
            ↔ p.workers.length = cfg.MaxWorkerCount) ∧
          (p.workers.length = cfg.MaxWorkerCount → runAdd cfg p = p))) ∧
    (∀ (cfg : Config) (p : Pool), cfg.MinWorkerCount ≤ p.workers.length →
        ((removeWorker cfg p = Except.error PoolError.minReached
            ↔ p.workers.length = cfg.MinWorkerCount) ∧
          (p.workers.length = cfg.MinWorkerCount → runRemove cfg p = p))) ∧
    (∀ cfg : Config, cfg.MinWorkerCount ≤ cfg.InitialWorkerCount →
        cfg.InitialWorkerCount ≤ cfg.MaxWorkerCount →
        ∀ p, Reachable cfg p →
          cfg.MinWorkerCount ≤ p.workers.length
            ∧ p.workers.length ≤ cfg.MaxWorkerCount) ∧
    ((Start cfgA emptyPool).1 = none ∧
      (Start cfgA emptyPool).2.workers.length = 2 ∧
      addWorker cfgA (Start cfgA emptyPool).2
        = Except.ok ⟨[(0, ⟨false⟩), (1, ⟨false⟩), (2, ⟨false⟩)], 3⟩ ∧
      ([(0, ⟨false⟩), (1, ⟨false⟩), (2, ⟨false⟩)] : List (ℕ × WorkerState)).length
        = 3 ∧
      addWorker cfgA ⟨[(0, ⟨false⟩), (1, ⟨false⟩), (2, ⟨false⟩)], 3⟩
        = Except.error PoolError.maxReached ∧
      runAdd cfgA ⟨[(0, ⟨false⟩), (1, ⟨false⟩), (2, ⟨false⟩)], 3⟩
        = ⟨[(0, ⟨false⟩), (1, ⟨false⟩), (2, ⟨false⟩)], 3⟩) := by
  refine ⟨?_, ?_, ?_, rfl, by decide, rfl, by decide, rfl, rfl⟩
  · intro cfg p hle
    constructor
    · rw [addWorker]
      by_cases h : cfg.MaxWorkerCount ≤ p.workers.length
      · simp only [h, if_true]
        simp
        omega
      · simp only [h, if_false]
        simp
        omega
    · intro hmax
      have h : cfg.MaxWorkerCount ≤ p.workers.length := le_of_eq hmax.symm
      simp [runAdd, addWorker, h]
  · intro cfg p hge
    constructor
    · rw [removeWorker]
      by_cases h : p.workers.length ≤ cfg.MinWorkerCount
      · simp only [h, if_true]
        simp
        omega
      · simp only [h, if_false]
        simp
        omega
    · intro hmin
      have h : p.workers.length ≤ cfg.MinWorkerCount := le_of_eq hmin
      simp [runRemove, removeWorker, h]
  · intro cfg hmin hmax p hreach
    induction hreach with
    | started p0 h =>
      have hlen := startWorkers_ok_length cfg cfg.InitialWorkerCount emptyPool p0 h
      simp [emptyPool] at hlen
      omega
    | addStep p hr ih =>
      rcases runAdd_length cfg p with ⟨h1, h2⟩ | ⟨h1, h2⟩
      · rw [h1]; omega
      · rw [h1]; exact ih
    | removeStep p hr ih =>
      rcases runRemove_length cfg p with ⟨h1, h2⟩ | ⟨h1, h2⟩
      · rw [h1]; omega
      · rw [h1]; exact ih

/-- C3, instantiated: at a pool of 3 workers under scenario A's config,
`addWorker` fails with `MaxReached`; and the pool of 2 workers that `Start`
produces is within the bounds `2 ≤ |workers| ≤ 3`. -/
theorem claim_C3_witness :
    addWorker cfgA (poolOf 3) = Except.error PoolError.maxReached ∧
    (cfgA.MinWorkerCount ≤ (poolOf 2).workers.length
      ∧ (poolOf 2).workers.length ≤ cfgA.MaxWorkerCount) :=
  ⟨(claim_C3.1 cfgA (poolOf 3) (by decide)).1.mpr (by decide),
   claim_C3.2.2.1 cfgA (by decide) (by decide) (poolOf 2)
     (Reachable.started (poolOf 2) (by decide))⟩

/-! ## Claim C5 -/

theorem startWorkers_error_leaves_created_running (cfg : Config) :
    ∀ (n : ℕ) (p p' : Pool) (e : PoolError),
      startWorkers cfg n p = (some e, p') →
      ∃ created, p'.workers = p.workers ++ created ∧
        ∀ w ∈ created, w.2.stopped = false := by
  intro n
  induction n with
  | zero =>
    intro p p' e h
    simp [startWorkers] at h
  | succ k ih =>
    intro p p' e h
    rw [startWorkers] at h
    rcases haw : addWorker cfg p with e' | q
    · rw [haw] at h
      simp only [Prod.mk.injEq] at h
      refine ⟨[], by simp [← h.2], by simp⟩
    · rw [haw] at h
      obtain ⟨created, hc, hstop⟩ := ih q p' e h
      have hq : q.workers = p.workers ++ [(p.nextId, ⟨false⟩)] := by
        rw [addWorker] at haw
        split at haw
        · simp at haw
        · simp only [Except.ok.injEq] at haw
          rw [← haw]
      refine ⟨(p.nextId, ⟨false⟩) :: created, ?_, ?_⟩
      · rw [hc, hq]
        simp
      · intro w hw
        rcases List.mem_cons.mp hw with rfl | hmem
        · rfl
        · exact hstop w hmem

/-- C5 counterexample: under scenario A's config with two workers already in
the pool, `Start` (initial = 2) creates worker 2, then fails with
`MaxReached`; it surfaces the error, but worker 2 — created by that very
`Start` call, as no pre-existing worker has id 2 — remains in the map with
its stop signal not raised.  This refutes the claim that every worker
created by a failing `start` call is stopped before `start` returns. -/
theorem claim_C5_counterexample :
    (Start cfgA (poolOf 2)).1 = some PoolError.maxReached ∧
    ((2 : ℕ), (⟨false⟩ : WorkerState)) ∈ (Start cfgA (poolOf 2)).2.workers ∧
    (∀ w ∈ (poolOf 2).workers, w.1 ≠ 2) := by
  refine ⟨rfl, by decide, by decide⟩

/-- C5 (amended): if creating any of the initial workers fails, `Start`
returns an error to the caller, but the workers already created by that
`Start` call are left appended to the map with their stop signals not raised
(they are not stopped before `Start` returns). -/
theorem claim_C5_amended (cfg : Config) (p p' : Pool) (e : PoolError)
    (h : Start cfg p = (some e, p')) :
    ∃ created, p'.workers = p.workers ++ created ∧
      ∀ w ∈ created, w.2.stopped = false :=
  startWorkers_error_leaves_created_running cfg cfg.InitialWorkerCount p p' e h

/-- C5 amended, instantiated at the counterexample input. -/
theorem claim_C5_amended_witness :
    ∃ created,
      (⟨[(0, ⟨false⟩), (1, ⟨false⟩), (2, ⟨false⟩)], 3⟩ : Pool).workers
          = (poolOf 2).workers ++ created ∧
        ∀ w ∈ created, w.2.stopped = false :=
  claim_C5_amended cfgA (poolOf 2) _ PoolError.maxReached rfl

/-! ## Claim C4 -/

/-- The scale-up predicate as the spec words it, for comparison with the
code's `shouldScaleUp`: depth above `scale_up_depth`, or 1-minute utilization
average above 75, or the 1-minute `ProcessingTime` average (a millisecond
value, as recorded) above `target_processing_time` in seconds. -/
def specScaleUpPredicate (cfg : Config) (queueDepth processingTime utilization : ℚ) :
    Prop :=
  queueDepth > cfg.ScaleUpThreshold ∨ utilization > 75
    ∨ processingTime > cfg.TargetProcessingTimeSeconds

/-- Scenario E's collector: `QueueDepth = 0`, one 1 ms `ProcessingTime`
sample and one 80 % `WorkerUtilization` sample, all recorded at t = 90 s. -/
def scenarioEState : CollectorState :=
  processMetric 90 (processMetric 90 (processMetric 90 initialCollector
    ⟨MetricQueueDepth, 0, "Count", 90⟩)
    ⟨MetricProcessingTime, 1, "Milliseconds", 90⟩)
    ⟨MetricWorkerUtilization, 80, "Percent", 90⟩

/-- Scenario E's configuration: `scale_up_depth = 50`, target 30 s. -/
def cfgE : Config := ⟨2, 100, 2, 50, 10, 30, 30⟩

/-- C4 (confirmed): the scale-up decision is exactly the three-armed
disjunction of the claim, and in scenario E (`QueueDepth = 0`,
`ProcessingTime` average 1 ms, `WorkerUtilization` average 80 %,
`scale_up_depth = 50`) a full scaler tick reads those values from the
collector and calls `addWorker` — the utilization arm fires. -/
theorem claim_C4 :
    (∀ (cfg : Config) (qd pt util : ℚ),
        shouldScaleUp cfg qd pt util = true ↔ specScaleUpPredicate cfg qd pt util) ∧
    GetMetric scenarioEState MetricQueueDepth = 0 ∧
    GetMetricAverage 100 scenarioEState MetricProcessingTime 60 = 1 ∧
    GetMetricAverage 100 scenarioEState MetricWorkerUtilization 60 = 80 ∧
    (scalerTick cfgE 100 scenarioEState ⟨0⟩ (poolOf 2)).actions
      = [ScaleAction.add false] := by
  have hqd : GetMetric scenarioEState MetricQueueDepth = 0 := by decide
  have hwinPT : scenarioEState.metricWindow MetricProcessingTime = [⟨1, 90⟩] := by
    decide
  have hwinWU : scenarioEState.metricWindow MetricWorkerUtilization = [⟨80, 90⟩] := by
    decide
  have hpt : GetMetricAverage 100 scenarioEState MetricProcessingTime 60 = 1 := by
    simp only [GetMetricAverage, hwinPT]
    norm_num [List.filter]
  have hutil : GetMetricAverage 100 scenarioEState MetricWorkerUtilization 60 = 80 := by
    simp only [GetMetricAverage, hwinWU]
    norm_num [List.filter]
  refine ⟨?_, hqd, hpt, hutil, ?_⟩
  · intro cfg qd pt util
    simp [shouldScaleUp, specScaleUpPredicate, Bool.or_eq_true, decide_eq_true_eq,
      or_assoc]
  · rw [scalerTick, hqd, hpt, hutil]
    decide

/-! ## Claim C7 -/

/-- A collector that drains, at t = 3600 s, a sample stamped t = 0 — one hour
stale, e.g. because it sat in the ingress channel. -/
def staleDrainState : CollectorState :=
  processMetric 3600 initialCollector ⟨"X", 5, "Count", 0⟩

/-- C7 counterexample: after the mutation applying the stale sample
completes, the window of `"X"` still holds the datapoint stamped 0, which is
older than `now − 30 min = 1800`: the pruning loop leaves `keepIndex = 0`
when no datapoint is in-window, so the stale leading prefix — here the whole
window — is not removed.  This refutes both halves of the claim at this
input. -/
theorem claim_C7_counterexample :
    staleDrainState.metricWindow "X" = [⟨5, 0⟩] ∧
    ¬ (∀ dp ∈ staleDrainState.metricWindow "X",
        3600 - retentionSeconds ≤ dp.timestamp) := by
  constructor <;> decide

/-- C7 (amended): pruning removes the leading prefix of out-of-window
datapoints, stopping at the first in-window datapoint, **provided** at least
one in-window datapoint exists; when none does, the window is left entirely
unpruned.  Consequently the invariant "every point has
`timestamp > now − 30 min` after a mutation" holds for the windows the
design intends — timestamps in non-decreasing order with the applied sample
in-window — but not in general. -/
theorem claim_C7_amended :
    (∀ (now : ℤ) (l : List MetricDataPoint),
        (∃ dp ∈ l, now - retentionSeconds < dp.timestamp) →
        cleanupOldDataPoints now l
          = l.dropWhile (fun dp => dp.timestamp ≤ now - retentionSeconds)) ∧
    (∀ (now : ℤ) (l : List MetricDataPoint),
        (∀ dp ∈ l, dp.timestamp ≤ now - retentionSeconds) →
        cleanupOldDataPoints now l = l) ∧
    (∀ (now : ℤ) (st : CollectorState) (m : Metric),
        List.Pairwise (fun a b : MetricDataPoint => a.timestamp ≤ b.timestamp)
            (st.metricWindow m.name ++ [⟨m.value, m.timestamp⟩]) →
        now - retentionSeconds < m.timestamp →
        ∀ dp ∈ (processMetric now st m).metricWindow m.name,
          now - retentionSeconds < dp.timestamp) := by
  refine ⟨cleanupOldDataPoints_eq_dropWhile, cleanupOldDataPoints_stale_unchanged, ?_⟩
  intro now st m hpair hfresh dp hdp
  have hwin : (processMetric now st m).metricWindow m.name
      = cleanupOldDataPoints now
          (st.metricWindow m.name ++ [⟨m.value, m.timestamp⟩]) := by
    simp [processMetric]
  rw [hwin, cleanupOldDataPoints_eq_dropWhile] at hdp
  · exact dropWhile_stale_fresh _ _ hpair dp hdp
  · exact ⟨⟨m.value, m.timestamp⟩, by simp, hfresh⟩

/-- C7 amended, instantiated: an in-window sample applied to an empty window
leaves only in-window datapoints behind. -/
theorem claim_C7_amended_witness :
    (100 : ℤ) - retentionSeconds < (95 : ℤ) :=
  claim_C7_amended.2.2 100 initialCollector ⟨"X", 7, "Count", 95⟩
    (by simp [initialCollector]) (by decide) ⟨7, 95⟩ (by decide)

/-! ## Claim C8 -/

/-- The samples the spec calls in-window for `average(name, d)`: values of
the datapoints strictly newer than `now − d`. -/
def specInWindowValues (now duration : ℤ) (l : List MetricDataPoint) : List ℚ :=
  (l.filter (fun dp => now - duration < dp.timestamp)).map (fun dp => dp.value)

/-- The unweighted mean the spec describes. -/
def specUnweightedMean (vs : List ℚ) : ℚ := vs.sum / (vs.length : ℚ)

/-- A collector holding a single fresh sample of value 0. -/
def zeroSampleState : CollectorState :=
  processMetric 100 initialCollector ⟨"X", 0, "Count", 100⟩

/-- C8 counterexample: with one in-window sample of value 0 the average is 0
even though an in-window sample exists, so "average = 0 iff no in-window
sample" fails in the only-if direction at this input. -/
theorem claim_C8_counterexample :
    GetMetricAverage 100 zeroSampleState "X" 60 = 0 ∧
    (∃ dp ∈ zeroSampleState.metricWindow "X", 100 - 60 < dp.timestamp) ∧
    ¬ ((GetMetricAverage 100 zeroSampleState "X" 60 = 0) ↔
        ¬ ∃ dp ∈ zeroSampleState.metricWindow "X", 100 - 60 < dp.timestamp) := by
  have havg : GetMetricAverage 100 zeroSampleState "X" 60 = 0 := by
    norm_num [zeroSampleState, GetMetricAverage, processMetric, initialCollector,
      cleanupOldDataPoints, keepIndexOf, List.filter]
  have hex : ∃ dp ∈ zeroSampleState.metricWindow "X", 100 - 60 < dp.timestamp := by
    decide
  exact ⟨havg, hex, fun hiff => (hiff.mp havg) hex⟩

/-- C8 (amended): `average(name, d)` is 0 whenever the window holds no sample
with `timestamp > now − d`, and it is the unweighted mean of the in-window
samples whenever at least one exists — so an average of 0 implies either no
in-window sample or in-window samples whose values average to 0, but not
necessarily the former. -/
theorem claim_C8_amended :
    (∀ (now : ℤ) (st : CollectorState) (name : String) (d : ℤ),
        (∀ dp ∈ st.metricWindow name, dp.timestamp ≤ now - d) →
        GetMetricAverage now st name d = 0) ∧
    (∀ (now : ℤ) (st : CollectorState) (name : String) (d : ℤ),
        specInWindowValues now d (st.metricWindow name) ≠ [] →
        GetMetricAverage now st name d
          = specUnweightedMean (specInWindowValues now d (st.metricWindow name))) := by
  constructor
  · intro now st name d h
    simp only [GetMetricAverage]
    by_cases he : (st.metricWindow name).isEmpty
    · simp [he]
    · simp only [he, if_false]
      have hfil : (st.metricWindow name).filter
          (fun dp => decide (now - d < dp.timestamp)) = [] := by
        rw [List.filter_eq_nil_iff]
        intro dp hdp
        simpa [not_lt] using h dp hdp
      simp [hfil]
  · intro now st name d hne
    have hfil : (st.metricWindow name).filter
        (fun dp => decide (now - d < dp.timestamp)) ≠ [] := by
      intro h0
      apply hne
      simp [specInWindowValues, h0]
    have hlist : ¬ (st.metricWindow name).isEmpty := by
      intro h0
      apply hfil
      rw [List.isEmpty_iff] at h0
      simp [h0]
    have hlen : ((st.metricWindow name).filter
        (fun dp => decide (now - d < dp.timestamp))).length ≠ 0 := by
      simpa [List.length_eq_zero] using hfil
    simp only [GetMetricAverage, specInWindowValues, specUnweightedMean,
      hlist, if_false, hlen, List.length_map]
    simp

/-- C8 amended, instantiated: a window holding one fresh sample of value 20
averages to the spec's unweighted mean of its in-window samples. -/
theorem claim_C8_amended_witness :
    GetMetricAverage 100 (processMetric 100 initialCollector ⟨"X", 20, "Count", 95⟩)
        "X" 60
      = specUnweightedMean (specInWindowValues 100 60
          ((processMetric 100 initialCollector ⟨"X", 20, "Count", 95⟩).metricWindow
            "X")) :=
  claim_C8_amended.2 100 (processMetric 100 initialCollector ⟨"X", 20, "Count", 95⟩)
    "X" 60 (by decide)

/-! ## Claim C9 -/

/-- C9 (confirmed): whenever the utilization ticker publishes (the elapsed
window is positive) with a non-negative processed count, the published value
is `min(100, processed / elapsed_seconds × 100)`, which lies in `[0, 100]`;
and a worker that processed 50 messages in a 10-second window reports 100,
not 500. -/
theorem claim_C9 :
    (∀ (processed lastWindow now : ℤ), 0 ≤ processed → 0 < now - lastWindow →
        utilizationTick processed lastWindow now
            = some (min 100 ((processed : ℚ) / ((now - lastWindow : ℤ) : ℚ) * 100)) ∧
          0 ≤ min 100 ((processed : ℚ) / ((now - lastWindow : ℤ) : ℚ) * 100) ∧
          min 100 ((processed : ℚ) / ((now - lastWindow : ℤ) : ℚ) * 100) ≤ 100) ∧
    utilizationTick 50 0 10 = some 100 := by
  constructor
  · intro processed lastWindow now hp ht
    have hcast : (0 : ℚ) < ((now - lastWindow : ℤ) : ℚ) := by exact_mod_cast ht
    have hp' : (0 : ℚ) ≤ (processed : ℚ) := by exact_mod_cast hp
    have hutil : 0 ≤ (processed : ℚ) / ((now - lastWindow : ℤ) : ℚ) * 100 :=
      mul_nonneg (div_nonneg hp' hcast.le) (by norm_num)
    have hmin : (if (processed : ℚ) / ((now - lastWindow : ℤ) : ℚ) * 100 > 100
        then (100 : ℚ)
        else (processed : ℚ) / ((now - lastWindow : ℤ) : ℚ) * 100)
        = min 100 ((processed : ℚ) / ((now - lastWindow : ℤ) : ℚ) * 100) := by
      rcases le_or_lt ((processed : ℚ) / ((now - lastWindow : ℤ) : ℚ) * 100) 100
        with h | h
      · rw [if_neg (not_lt.mpr h), min_eq_right h]
      · rw [if_pos h, min_eq_left h.le]
    refine ⟨?_, le_min (by norm_num) hutil, min_le_left _ _⟩
    simp only [utilizationTick, ht, if_true]
    rw [hmin]
  · norm_num [utilizationTick]

/-- C9, instantiated at scenario F's numbers. -/
theorem claim_C9_witness :
    utilizationTick 50 0 10
        = some (min 100 ((50 : ℤ) / (((10 : ℤ) - (0 : ℤ) : ℤ) : ℚ) * 100)) ∧
      0 ≤ min 100 (((50 : ℤ) : ℚ) / (((10 : ℤ) - (0 : ℤ) : ℤ) : ℚ) * 100) ∧
      min 100 (((50 : ℤ) : ℚ) / (((10 : ℤ) - (0 : ℤ) : ℤ) : ℚ) * 100) ≤ 100 :=
  claim_C9.1 50 0 10 (by decide) (by decide)

end SqsConsumer
